import Mathlib

/-
Verification of the penny_ante roulette betting-rules engine.

This file shallowly embeds the rules engine of the repository
(`src/penny_ante/betting_rules.py`, `bet.py`, `game.py`, `layout.py`,
`space.py`) into Lean 4 and proves properties of the embedding.

Modelling conventions:
  - YAML documents and Python dicts become association lists
    `List (String × _)` preserving insertion order; `d[k] = v` replaces the
    first binding in place or appends a fresh one at the end, exactly as a
    Python dict does.
  - Python `float` configuration values are modelled as exact rationals `ℚ`;
    Python `int(x)` (truncation toward zero) is `pyInt`.
  - Methods that raise become functions into `Except`.
  - File I/O is dropped: the configuration loader receives the already
    deserialized document.
-/

namespace PennyAnte

/-! ## Association-list dictionaries (Python `dict` semantics) -/

/-- First-match lookup in an association list, i.e. `d.get(k)` /
`d[k]` on a Python dict (whose keys are unique). -/
def lookupKey {α : Type} : List (String × α) → String → Option α
  | [], _ => none
  | (k', v) :: rest, k => if k' = k then some v else lookupKey rest k

/-- Key membership, i.e. Python `k in d`. -/
def hasKey {α : Type} (d : List (String × α)) (k : String) : Bool :=
  (lookupKey d k).isSome

/-- `d[k] = v` on a Python dict: replace the first binding for `k` in place,
or append a fresh binding at the end when `k` is absent. -/
def setKey {α : Type} : List (String × α) → String → α → List (String × α)
  | [], k, v => [(k, v)]
  | (k', v') :: rest, k, v =>
      if k' = k then (k, v) :: rest else (k', v') :: setKey rest k v

/-- `base.update(overlay)` on Python dicts: write every overlay binding into
the base, in overlay order. -/
def dictUpdate {α : Type} (base overlay : List (String × α)) : List (String × α) :=
  overlay.foldl (fun d kv => setKey d kv.1 kv.2) base

/-- Fetch with default, i.e. Python `d.get(k, dflt)`. -/
def getD {α : Type} (d : List (String × α)) (k : String) (dflt : α) : α :=
  (lookupKey d k).getD dflt

/-! ## Raw configuration documents

`CVal` is the universe of values a deserialized YAML document can hold, as
far as this engine reads them. -/

/-- A value inside a parsed configuration document. -/
inductive CVal where
  | int (n : ℤ)
  | rat (q : ℚ)
  | str (s : String)
  | bool (b : Bool)
  | list (xs : List CVal)
  | dict (entries : List (String × CVal))

/-- A parsed top-level configuration document (a YAML mapping). -/
abbrev Config := List (String × CVal)

mutual

/-- `BettingRules._deep_copy_dict` applied to a single value: dictionaries are
copied recursively, lists shallowly (`value.copy()`), scalars as-is.  In a
pure value model every copy is provably the original value. -/
def deepCopyVal : CVal → CVal
  | .dict d => .dict (deepCopyEntries d)
  | .list xs => .list xs
  | v => v

/-- `BettingRules._deep_copy_dict`: entry-by-entry copy of a dictionary. -/
def deepCopyEntries : List (String × CVal) → List (String × CVal)
  | [] => []
  | (k, v) :: rest => (k, deepCopyVal v) :: deepCopyEntries rest

end

namespace BettingRules

/-- Configuration errors raised during `BettingRules.__init__`
(`FileNotFoundError` is out of scope: the model receives the parsed
document). -/
inductive ConfigError where
  | emptyConfig
  | missingSections (sections : List String)
deriving DecidableEq, Repr

/-- The four required top-level sections
(`BettingRules._validate_config`). -/
def required_sections : List String :=
  ["payout_ratios", "minimum_bet_ratios", "maximum_bet_ratios", "table_limits"]

/-- `BettingRules._validate_config`: collect the required sections missing
from the document and fail when any is absent. -/
def validate_config (config : Config) : Except ConfigError Unit :=
  let missing := required_sections.filter (fun s => !hasKey config s)
  if missing.isEmpty then .ok () else .error (.missingSections missing)

/-- `BettingRules._load_config` after deserialization: reject an empty
document (`if not config`), then validate the required sections of the BASE
document — note that this runs before any overlay is applied. -/
def load_config (doc : Config) : Except ConfigError Config := do
  if doc.isEmpty then throw .emptyConfig
  validate_config doc
  pure doc

/-- One iteration of `BettingRules._apply_overlay`'s loop over the overlay
sections: merge per-key when both the overlay value and the base value at
that key are dictionaries, otherwise replace the base value wholesale. -/
def overlayStep (merged : Config) (kv : String × CVal) : Config :=
  match kv.2, lookupKey merged kv.1 with
  | .dict ov, some (.dict bv) => setKey merged kv.1 (.dict (dictUpdate bv ov))
  | _, _ => setKey merged kv.1 kv.2

/-- `BettingRules._apply_overlay`: deep-copy the base, then run the merge
loop over the overlay's sections. -/
def apply_overlay (base_config overlay_config : Config) : Config :=
  overlay_config.foldl overlayStep (deepCopyEntries base_config)

/-- `BettingRules.__init__` on the parsed base document: load (which
validates the base), apply the overlay when one is given and non-empty
(`if overlay_config:` — an empty dict is falsy), validate the merged result,
and return it.  Extraction of the typed sections below never fails. -/
def init_config (doc : Config) (overlay_config : Option Config) :
    Except ConfigError Config := do
  let config ← load_config doc
  let config :=
    match overlay_config with
    | some o => if o.isEmpty then config else apply_overlay config o
    | none => config
  validate_config config
  pure config

end BettingRules

/-! ## Bet types (`bet.py`, class `BetType`) -/

/-- `BetType`: the closed enumeration of the 17 wager shapes. -/
inductive BetType where
  | STRAIGHT_UP | SPLIT | STREET | CORNER | SIX_LINE
  | RED | BLACK | ODD | EVEN | HIGH | LOW
  | FIRST_DOZEN | SECOND_DOZEN | THIRD_DOZEN
  | FIRST_COLUMN | SECOND_COLUMN | THIRD_COLUMN
deriving DecidableEq, Repr

/-- The `.value` string of each `BetType` member; `bet_type.value if
hasattr(bet_type, 'value') else str(bet_type)` always takes the first branch
for enum members. -/
def BetType.value : BetType → String
  | .STRAIGHT_UP => "straight_up"
  | .SPLIT => "split"
  | .STREET => "street"
  | .CORNER => "corner"
  | .SIX_LINE => "six_line"
  | .RED => "red"
  | .BLACK => "black"
  | .ODD => "odd"
  | .EVEN => "even"
  | .HIGH => "high"
  | .LOW => "low"
  | .FIRST_DOZEN => "first_dozen"
  | .SECOND_DOZEN => "second_dozen"
  | .THIRD_DOZEN => "third_dozen"
  | .FIRST_COLUMN => "first_column"
  | .SECOND_COLUMN => "second_column"
  | .THIRD_COLUMN => "third_column"

/-! ## Numeric helpers for Python semantics -/

/-- Python `int(x)` on a number: truncation toward zero (`floor` for
non-negative values, `ceil` for negative ones). -/
def pyInt (q : ℚ) : ℤ :=
  if 0 ≤ q then ⌊q⌋ else ⌈q⌉

/-- Round-half-to-even on a rational, Python's `round` tie-breaking. -/
def roundHalfEven (q : ℚ) : ℤ :=
  let f := ⌊q⌋
  let r := q - f
  if r < 1 / 2 then f
  else if 1 / 2 < r then f + 1
  else if f % 2 = 0 then f else f + 1

/-- Python `round(x, 2)`: round to two decimal places, ties to even. -/
def pyRound2 (q : ℚ) : ℚ :=
  (roundHalfEven (q * 100) : ℚ) / 100

/-! ## The resolved rules engine (`betting_rules.py`, class `BettingRules`)

The sections extracted by `__init__` after load/overlay/validation, typed as
the source annotates them (`payout_ratios : Dict[str, int]`,
`*_bet_ratios : Dict[str, float]`, `table_limits : Dict[str, int]`).
`game_rules`/`special_rules` are opaque toggles no claim touches and are
omitted. -/

/-- A fully initialized `BettingRules` instance. -/
structure Rules where
  table_type : String
  payout_ratios : List (String × ℤ)
  minimum_bet_ratios : List (String × ℚ)
  maximum_bet_ratios : List (String × ℚ)
  table_limits : List (String × ℤ)
deriving DecidableEq, Repr

namespace Rules

/-- `BettingRules.get_payout_ratio`: direct lookup, raising
`ValueError` (`BetKindNotOffered`) when the kind is not configured. -/
def get_payout_ratio (rules : Rules) (bet_type : BetType) : Except String ℤ :=
  match lookupKey rules.payout_ratios bet_type.value with
  | some r => .ok r
  | none => .error bet_type.value

/-- `BettingRules.is_bet_allowed`: a kind is allowed iff it appears in
`payout_ratios`. -/
def is_bet_allowed (rules : Rules) (bet_type : BetType) : Bool :=
  hasKey rules.payout_ratios bet_type.value

/-- `BettingRules.get_minimum_bet_ratio`: the kind's entry, else the
`"global"` entry, else `1.0`. -/
def get_minimum_bet_ratio (rules : Rules) (bet_type : BetType) : ℚ :=
  match lookupKey rules.minimum_bet_ratios bet_type.value with
  | some r => r
  | none =>
    match lookupKey rules.minimum_bet_ratios "global" with
    | some r => r
    | none => 1

/-- `BettingRules.get_maximum_bet_ratio`: same fallback chain over
`maximum_bet_ratios`. -/
def get_maximum_bet_ratio (rules : Rules) (bet_type : BetType) : ℚ :=
  match lookupKey rules.maximum_bet_ratios bet_type.value with
  | some r => r
  | none =>
    match lookupKey rules.maximum_bet_ratios "global" with
    | some r => r
    | none => 1

/-- `BettingRules.get_table_minimum` /
`self.table_limits.get('minimum_bet', 1)`. -/
def get_table_minimum (rules : Rules) : ℤ :=
  getD rules.table_limits "minimum_bet" 1

/-- `BettingRules.get_table_maximum` /
`self.table_limits.get('maximum_bet', 1000000)`. -/
def get_table_maximum (rules : Rules) : ℤ :=
  getD rules.table_limits "maximum_bet" 1000000

/-- `BettingRules.get_maximum_total_bet`:
`self.table_limits.get('maximum_total_bet', 10000000)`. -/
def get_maximum_total_bet (rules : Rules) : ℤ :=
  getD rules.table_limits "maximum_total_bet" 10000000

/-- `BettingRules.get_minimum_bet`: the ratio chain (kind entry, else
`"global"`, else `1.0`, inlined in the source exactly as in
`get_minimum_bet_ratio`) applied to the table minimum, then `int(...)`. -/
def get_minimum_bet (rules : Rules) (bet_type : BetType) : ℤ :=
  let table_minimum := getD rules.table_limits "minimum_bet" 1
  let ratio : ℚ :=
    match lookupKey rules.minimum_bet_ratios bet_type.value with
    | some r => r
    | none =>
      match lookupKey rules.minimum_bet_ratios "global" with
      | some r => r
      | none => 1
  pyInt ((table_minimum : ℚ) * ratio)

/-- `BettingRules.get_maximum_bet`: analogous chain over
`maximum_bet_ratios` applied to the table maximum, then `int(...)`. -/
def get_maximum_bet (rules : Rules) (bet_type : BetType) : ℤ :=
  let table_maximum := getD rules.table_limits "maximum_bet" 1000000
  let ratio : ℚ :=
    match lookupKey rules.maximum_bet_ratios bet_type.value with
    | some r => r
    | none =>
      match lookupKey rules.maximum_bet_ratios "global" with
      | some r => r
      | none => 1
  pyInt ((table_maximum : ℚ) * ratio)

/-- `BettingRules.validate_bet_amount`:
`min_bet <= amount <= max_bet`. -/
def validate_bet_amount (rules : Rules) (bet_type : BetType) (amount : ℤ) : Bool :=
  get_minimum_bet rules bet_type ≤ amount ∧ amount ≤ get_maximum_bet rules bet_type

/-- `BettingRules._get_winning_outcomes`: the fixed winning-pocket counts.
The source's unreachable `else: raise` branch cannot fire for members of the
closed enum. -/
def get_winning_outcomes (bet_type : BetType) : ℕ :=
  match bet_type with
  | .STRAIGHT_UP => 1
  | .SPLIT => 2
  | .STREET => 3
  | .CORNER => 4
  | .SIX_LINE => 6
  | .RED | .BLACK => 18
  | .ODD | .EVEN => 18
  | .HIGH | .LOW => 18
  | .FIRST_DOZEN | .SECOND_DOZEN | .THIRD_DOZEN => 12
  | .FIRST_COLUMN | .SECOND_COLUMN | .THIRD_COLUMN => 12

/-- `BettingRules._calculate_house_edge` (and `get_house_edge`, which just
delegates): `37` pockets when the table type is `"EUROPEAN"`, else `38`;
probability times `(payout + 1)`; result rounded to two decimals.  Raises
through `get_payout_ratio` when the kind is not configured. -/
def get_house_edge (rules : Rules) (bet_type : BetType) : Except String ℚ := do
  let total_pockets : ℚ := if rules.table_type = "EUROPEAN" then 37 else 38
  let payout_ratio ← get_payout_ratio rules bet_type
  let winning_outcomes := get_winning_outcomes bet_type
  let win_probability : ℚ := (winning_outcomes : ℚ) / total_pockets
  let house_edge := (1 - win_probability * ((payout_ratio : ℚ) + 1)) * 100
  pure (pyRound2 house_edge)

end Rules

/-! ## Layout (`layout.py`) and wheel spaces (`space.py`)

Only the parts the betting engine consumes: `layout.lookup` (space value to
grid position) and a space's `value`/`color`. -/

/-- A wheel space as the engine reads it: its printed `value` and its
`color` (`None` until the wheel assigns one). -/
structure Space where
  value : String
  color : Option String
deriving DecidableEq, Repr

/-- The numbered entries of `Layout.__init__`'s `value_lookup`: for columns
1..12 and rows 0..2, `str((column - 1) * 3 + row + 1)` maps to
`[row, column]`. -/
def numberedLookup : List (String × ℕ × ℕ) :=
  ((List.range 12).map (· + 1)).flatMap fun column =>
    (List.range 3).map fun row =>
      (toString ((column - 1) * 3 + row + 1), (row, column))

/-- A betting layout: the `lookup` table built by `Layout.__init__`
(house entries first, then the numbered grid). -/
structure Layout where
  lookup : List (String × ℕ × ℕ)
deriving DecidableEq, Repr

/-- The American layout's lookup: `"0"` at `[0, 0]`, `"00"` at `[1, 0]`,
then the numbered spaces. -/
def americanLayout : Layout :=
  ⟨[("0", (0, 0)), ("00", (1, 0))] ++ numberedLookup⟩

/-- The European layout's lookup: only `"0"` at `[0, 0]` before the numbered
spaces. -/
def europeanLayout : Layout :=
  ⟨[("0", (0, 0))] ++ numberedLookup⟩

/-- `space_value in layout.lookup`. -/
def Layout.member (layout : Layout) (space_value : String) : Bool :=
  hasKey layout.lookup space_value

/-! ## Bets (`bet.py`, class `Bet`) -/

/-- The distinct validation failures `Bet` construction can raise (each a
`ValueError` with its own message in the source). -/
inductive BetError where
  | nonPositiveAmount
  | invalidSpace (space_value : String)
  | shapeInvalid (bet_type : BetType)
  | notAllowed (bet_type : BetType)
  | amountOutOfRange (amount min_bet max_bet : ℤ)
deriving DecidableEq, Repr

/-- A `Bet` object.  `spaces` is the Python set normalized from the caller's
input, kept as a duplicate-free list; `chips` and `layout_positions` play no
part in validation or payout and are omitted. -/
structure Bet where
  bet_type : BetType
  spaces : List String
  amount : ℤ
  betting_rules : Option Rules
deriving DecidableEq, Repr

namespace Bet

/-- `Bet.PAYOUT_RATIOS`, the class-level default payout table. -/
def PAYOUT_RATIOS : BetType → ℤ
  | .STRAIGHT_UP => 35
  | .SPLIT => 17
  | .STREET => 11
  | .CORNER => 8
  | .SIX_LINE => 5
  | .RED | .BLACK | .ODD | .EVEN | .HIGH | .LOW => 1
  | .FIRST_DOZEN | .SECOND_DOZEN | .THIRD_DOZEN => 2
  | .FIRST_COLUMN | .SECOND_COLUMN | .THIRD_COLUMN => 2

/-- `Bet._validate_bet_type_matches_spaces`: the inside kinds demand their
exact arity (1/2/3/4/6); the `elif` chain imposes nothing on outside
kinds. -/
def validate_bet_type_matches_spaces (b : Bet) : Except BetError Unit :=
  match b.bet_type with
  | .STRAIGHT_UP => if b.spaces.length ≠ 1 then throw (.shapeInvalid b.bet_type) else pure ()
  | .SPLIT => if b.spaces.length ≠ 2 then throw (.shapeInvalid b.bet_type) else pure ()
  | .STREET => if b.spaces.length ≠ 3 then throw (.shapeInvalid b.bet_type) else pure ()
  | .CORNER => if b.spaces.length ≠ 4 then throw (.shapeInvalid b.bet_type) else pure ()
  | .SIX_LINE => if b.spaces.length ≠ 6 then throw (.shapeInvalid b.bet_type) else pure ()
  | _ => pure ()

/-- `Bet._validate_bet`: positive amount, every space either on the layout
or a house symbol (`"0"`, `"00"`), then the arity check. -/
def validate_bet (layout : Layout) (b : Bet) : Except BetError Unit := do
  if b.amount ≤ 0 then throw .nonPositiveAmount
  match b.spaces.find? (fun s => !(layout.member s || s == "0" || s == "00")) with
  | some s => throw (.invalidSpace s)
  | none => validate_bet_type_matches_spaces b

/-- `Bet._validate_betting_rules` with rules present: kind must be in the
payout table, amount must pass `validate_bet_amount` (the failure message
reports the derived bounds). -/
def validate_betting_rules (rules : Rules) (bet_type : BetType) (amount : ℤ) :
    Except BetError Unit := do
  if !rules.is_bet_allowed bet_type then
    throw (.notAllowed bet_type)
  if !rules.validate_bet_amount bet_type amount then
    throw (.amountOutOfRange amount (rules.get_minimum_bet bet_type)
      (rules.get_maximum_bet bet_type))
  pure ()

/-- `Bet.__init__` (`chips` omitted): normalize `spaces` to a set, run
`_validate_bet` only when a layout is supplied, then
`_validate_betting_rules` only when rules are supplied. -/
def init (bet_type : BetType) (spaces : List String) (amount : ℤ)
    (layout : Option Layout) (betting_rules : Option Rules) :
    Except BetError Bet := do
  let b : Bet :=
    { bet_type := bet_type, spaces := spaces.dedup, amount := amount,
      betting_rules := betting_rules }
  match layout with
  | some l => validate_bet l b
  | none => pure ()
  match betting_rules with
  | some r => validate_betting_rules r bet_type amount
  | none => pure ()
  pure b

/-- Python `str.isdigit` restricted to ASCII: non-empty and all digits. -/
def pyIsDigit (s : String) : Bool :=
  s.length > 0 && s.toList.all Char.isDigit

/-- Python `int(s)` on an all-digit string. -/
def pyStrToInt (s : String) : ℤ :=
  (s.toNat?.getD 0 : ℤ)

/-- `Bet.is_winning_bet`: direct coverage first, then the outside-bet
predicates over the winning space's color or numeric value; inside kinds
fall through to `False`. -/
def is_winning_bet (b : Bet) (winning_space : Space) : Bool :=
  let winning_value := winning_space.value
  if b.spaces.contains winning_value then true
  else
    match b.bet_type with
    | .RED => winning_space.color == some "RED"
    | .BLACK => winning_space.color == some "BLACK"
    | .ODD =>
        pyIsDigit winning_value && pyStrToInt winning_value > 0 &&
          pyStrToInt winning_value % 2 == 1
    | .EVEN =>
        pyIsDigit winning_value && pyStrToInt winning_value > 0 &&
          pyStrToInt winning_value % 2 == 0
    | .HIGH =>
        pyIsDigit winning_value && 19 ≤ pyStrToInt winning_value &&
          pyStrToInt winning_value ≤ 36
    | .LOW =>
        pyIsDigit winning_value && 1 ≤ pyStrToInt winning_value &&
          pyStrToInt winning_value ≤ 18
    | .FIRST_DOZEN =>
        pyIsDigit winning_value && 1 ≤ pyStrToInt winning_value &&
          pyStrToInt winning_value ≤ 12
    | .SECOND_DOZEN =>
        pyIsDigit winning_value && 13 ≤ pyStrToInt winning_value &&
          pyStrToInt winning_value ≤ 24
    | .THIRD_DOZEN =>
        pyIsDigit winning_value && 25 ≤ pyStrToInt winning_value &&
          pyStrToInt winning_value ≤ 36
    | .FIRST_COLUMN =>
        pyIsDigit winning_value &&
          [1, 4, 7, 10, 13, 16, 19, 22, 25, 28, 31, 34].contains
            (pyStrToInt winning_value)
    | .SECOND_COLUMN =>
        pyIsDigit winning_value &&
          [2, 5, 8, 11, 14, 17, 20, 23, 26, 29, 32, 35].contains
            (pyStrToInt winning_value)
    | .THIRD_COLUMN =>
        pyIsDigit winning_value &&
          [3, 6, 9, 12, 15, 18, 21, 24, 27, 30, 33, 36].contains
            (pyStrToInt winning_value)
    | _ => false

/-- `Bet.calculate_payout`: `0` on a loss; otherwise prefer the attached
rules' ratio, silently falling back to `PAYOUT_RATIOS` when
`get_payout_ratio` raises; return stake plus winnings. -/
def calculate_payout (b : Bet) (winning_space : Space) : ℤ :=
  if !is_winning_bet b winning_space then 0
  else
    let payout_ratio :=
      match b.betting_rules with
      | some rules =>
        match rules.get_payout_ratio b.bet_type with
        | .ok r => r
        | .error _ => PAYOUT_RATIOS b.bet_type
      | none => PAYOUT_RATIOS b.bet_type
    let winnings := b.amount * payout_ratio
    b.amount + winnings

/-- `Bet.get_effective_payout_ratio`: the rules' ratio when rules are
attached, the kind is allowed and the lookup succeeds; otherwise the
class-level default. -/
def get_effective_payout_ratio (b : Bet) : ℤ :=
  match b.betting_rules with
  | some rules =>
    if rules.is_bet_allowed b.bet_type then
      match rules.get_payout_ratio b.bet_type with
      | .ok r => r
      | .error _ => PAYOUT_RATIOS b.bet_type
    else PAYOUT_RATIOS b.bet_type
  | none => PAYOUT_RATIOS b.bet_type

end Bet

/-! ## Multi-bet validation

`BettingRules.validate_multiple_bets` is invoked by `Game.validate_all_bets`
(hence at `close_betting`), by the test suite and by the demos, but its
definition is absent from the source tree; it is modelled here from the
specification. -/

/-- The summary dictionary a multi-bet validation returns: total count,
total staked amount, per-kind count and sub-total, collected error messages,
and the overall verdict. -/
structure MultiBetResult where
  valid : Bool
  bet_count : ℕ
  total_amount : ℤ
  bet_type_counts : List (String × ℕ × ℤ)
  errors : List BetError
deriving DecidableEq, Repr

/-- Modelled from the spec: the full single-bet check set of spec section
4.3, which that section requires re-validation to share with construction —
(a) positive amount, (e) space validity against the layout with the house
symbols always accepted, and (d) arity, via the source's
`Bet._validate_bet`, then (b) kind offered and (c) amount within the
derived bounds, via the source's `Bet._validate_betting_rules`. -/
def multiBetSingleCheck (rules : Rules) (layout : Layout) (b : Bet) :
    Except BetError Unit := do
  Bet.validate_bet layout b
  Bet.validate_betting_rules rules b.bet_type b.amount

/-- The error of a failed check, `none` on success. -/
def checkError {ε α : Type} : Except ε α → Option ε
  | .ok _ => none
  | .error e => some e

/-- One step of the per-kind tally: bump the bet's kind's count and
sub-total (inserting the kind on first sight, as a Python dict would). -/
def bumpTypeCounts (acc : List (String × ℕ × ℤ)) (b : Bet) :
    List (String × ℕ × ℤ) :=
  let key := b.bet_type.value
  match lookupKey acc key with
  | some (count, subtotal) => setKey acc key (count + 1, subtotal + b.amount)
  | none => setKey acc key (1, b.amount)

/-- Modelled from the spec: `BettingRules.validate_multiple_bets` (absent
from the source tree; only its callers, tests and demos exist).  For a batch
of N bets it computes the total count, the total staked amount, the per-kind
count and sub-total, one error per bet failing the single-bet validation of
spec section 4.3 (run against the table's layout), and `valid`, which is
false exactly when some bet fails or the batch total exceeds
`table_limits.maximum_total_bet`. -/
def validate_multiple_bets (rules : Rules) (layout : Layout) (bets : List Bet) :
    MultiBetResult :=
  let total_amount := (bets.map Bet.amount).sum
  let errors :=
    bets.filterMap (fun b => checkError (multiBetSingleCheck rules layout b))
  { valid := errors.isEmpty && total_amount ≤ rules.get_maximum_total_bet,
    bet_count := bets.length,
    total_amount := total_amount,
    bet_type_counts := bets.foldl bumpTypeCounts [],
    errors := errors }

/-! ## Game orchestration (`game.py`, class `Game`)

Only the betting state: the wheel, croupier and player/chip bookkeeping are
outside the engine (the claims exercise `place_bet` with no player, so the
chip branches never fire). -/

/-- The errors `Game.place_bet` can raise. -/
inductive GameError where
  | bettingClosed
  | betInvalid (e : BetError)
  | aggregateLimitExceeded (limit : ℤ)
deriving DecidableEq, Repr

/-- A game's betting state: the open/closed phase, the active bets, and the
resolved rules. -/
structure Game where
  betting_open : Bool
  active_bets : List Bet
  betting_rules : Rules
deriving DecidableEq, Repr

namespace Game

/-- A freshly constructed game: betting open, no active bets. -/
def init (rules : Rules) : Game :=
  { betting_open := true, active_bets := [], betting_rules := rules }

/-- `Game.get_total_bet_amount`: sum of the active bets' amounts. -/
def get_total_bet_amount (g : Game) : ℤ :=
  (g.active_bets.map Bet.amount).sum

/-- `Game.place_bet` (no player supplied, so the chip branches are skipped):
reject when betting is closed; when the bet carries no rules, attach the
game's rules and run `_validate_betting_rules`; then reject when the current
total plus the new amount would exceed `get_maximum_total_bet`; only then
append the bet. -/
def place_bet (g : Game) (bet : Bet) : Except GameError Game := do
  if !g.betting_open then throw .bettingClosed
  let bet ←
    match bet.betting_rules with
    | none =>
      match Bet.validate_betting_rules g.betting_rules bet.bet_type bet.amount with
      | .ok _ => pure { bet with betting_rules := some g.betting_rules }
      | .error e => throw (.betInvalid e)
    | some _ => pure bet
  let current_total := (g.active_bets.map Bet.amount).sum
  if current_total + bet.amount > g.betting_rules.get_maximum_total_bet then
    throw (.aggregateLimitExceeded g.betting_rules.get_maximum_total_bet)
  pure { g with active_bets := g.active_bets ++ [bet] }

/-- Place a list of bets one `place_bet` call at a time. -/
def place_bets (g : Game) (bets : List Bet) : Except GameError Game :=
  bets.foldlM place_bet g

/-- `Game.validate_all_bets`: delegate the active bets to
`validate_multiple_bets`.  The layout is the one the source game owns as
`self.table.layout`; the rest of the table stays outside the betting
state, so it is passed explicitly here. -/
def validate_all_bets (g : Game) (layout : Layout) : MultiBetResult :=
  validate_multiple_bets g.betting_rules layout g.active_bets

/-- `Game.close_betting`: flip the phase to closed, then validate all
pending bets and surface (without auto-correcting) the result. -/
def close_betting (g : Game) (layout : Layout) : Game × MultiBetResult :=
  let g := { g with betting_open := false }
  (g, validate_all_bets g layout)

/-- `Game.open_betting`: reopen and clear the pending bets. -/
def open_betting (g : Game) : Game :=
  { g with betting_open := true, active_bets := [] }

end Game

/-! ## The default configuration

Modelled from the spec: the default configuration files
`config/american_rules.yaml` / `config/european_rules.yaml` named by
`DEFAULT_AMERICAN_CONFIG` / `DEFAULT_EUROPEAN_CONFIG` are not in the source
tree.  The payout table follows the spec's default
(35/17/11/8/5, 1 for the even-money kinds, 2 for dozens and columns), which
also matches `BettingRules.create_default_config` in the source; the limit
and ratio sections follow the values the test suite asserts. -/

/-- The default payout table as a configuration section. -/
def defaultPayoutSection : List (String × ℤ) :=
  [("straight_up", 35), ("split", 17), ("street", 11), ("corner", 8),
   ("six_line", 5), ("red", 1), ("black", 1), ("odd", 1), ("even", 1),
   ("high", 1), ("low", 1), ("first_dozen", 2), ("second_dozen", 2),
   ("third_dozen", 2), ("first_column", 2), ("second_column", 2),
   ("third_column", 2)]

/-- Modelled from the spec: the resolved default American rules. -/
def defaultAmericanRules : Rules :=
  { table_type := "AMERICAN",
    payout_ratios := defaultPayoutSection,
    minimum_bet_ratios :=
      [("global", 1), ("straight_up", 1), ("red", 5), ("black", 5)],
    maximum_bet_ratios := [("global", 1), ("straight_up", 1 / 2)],
    table_limits :=
      [("minimum_bet", 1), ("maximum_bet", 1000000),
       ("maximum_total_bet", 10000000)] }

/-- Modelled from the spec: the resolved default European rules (same payout
table, European table type). -/
def defaultEuropeanRules : Rules :=
  { defaultAmericanRules with table_type := "EUROPEAN" }

/-! ## Concrete instances used to settle the claims -/

/-- A base document missing `payout_ratios`, for exercising the loader. -/
def baseMissingPayouts : Config :=
  [("minimum_bet_ratios", .dict [("global", .rat 1)]),
   ("maximum_bet_ratios", .dict [("global", .rat 1)]),
   ("table_limits", .dict [("minimum_bet", .int 1)])]

/-- An overlay supplying only the `payout_ratios` section. -/
def overlayOnlyPayouts : Config :=
  [("payout_ratios", .dict [("straight_up", .int 35)])]

/-- A complete base document with all four required sections. -/
def fullBaseConfig : Config :=
  [("payout_ratios", .dict [("straight_up", .int 35), ("red", .int 1)]),
   ("minimum_bet_ratios", .dict [("global", .rat 1)]),
   ("maximum_bet_ratios", .dict [("global", .rat 1)]),
   ("table_limits", .dict [("minimum_bet", .int 1), ("maximum_bet", .int 1000)])]

/-- The `payout_ratios` entries of `fullBaseConfig`. -/
def fullBasePayouts : List (String × CVal) :=
  [("straight_up", .int 35), ("red", .int 1)]

/-- The spec's example overlay touching a single payout key. -/
def overlayStraightUp40 : Config :=
  [("payout_ratios", .dict [("straight_up", .int 40)])]

/-- A rules instance with a negative minimum-bet ratio, exercising the
truncation in `get_minimum_bet`. -/
def negRatioRules : Rules :=
  { table_type := "AMERICAN",
    payout_ratios := [("straight_up", 35)],
    minimum_bet_ratios := [("straight_up", -1/2)],
    maximum_bet_ratios := [],
    table_limits := [("minimum_bet", 3), ("maximum_bet", 10)] }

/-- The limited table of `tests/test_bet_enforcement.py`: only
`straight_up` and `red` are offered (`black` is absent). -/
def limitedRules : Rules :=
  { table_type := "AMERICAN",
    payout_ratios := [("straight_up", 35), ("red", 1)],
    minimum_bet_ratios := [("global", 1)],
    maximum_bet_ratios := [("global", 1)],
    table_limits :=
      [("minimum_bet", 1), ("maximum_bet", 1000), ("maximum_total_bet", 10000)] }

/-- The single-bet checks in the order the specification lists them —
amount, kind offered, amount range, arity, space validity — written only to
compare against the source's construction-time order. -/
def claimOrderValidate (layout : Layout) (rules : Rules) (bet_type : BetType)
    (spaces : List String) (amount : ℤ) : Except BetError Unit := do
  let b : Bet :=
    { bet_type := bet_type, spaces := spaces.dedup, amount := amount,
      betting_rules := some rules }
  if amount ≤ 0 then throw .nonPositiveAmount
  if !rules.is_bet_allowed bet_type then throw (.notAllowed bet_type)
  if !rules.validate_bet_amount bet_type amount then
    throw (.amountOutOfRange amount (rules.get_minimum_bet bet_type)
      (rules.get_maximum_bet bet_type))
  Bet.validate_bet_type_matches_spaces b
  match b.spaces.find? (fun s => !(layout.member s || s == "0" || s == "00")) with
  | some s => throw (.invalidSpace s)
  | none => pure ()

/-- Whether a space count matches a kind's required arity: the five inside
kinds demand exactly 1/2/3/4/6 covered spaces, outside kinds accept any. -/
def arityOk (bet_type : BetType) (n : ℕ) : Bool :=
  match bet_type with
  | .STRAIGHT_UP => n == 1
  | .SPLIT => n == 2
  | .STREET => n == 3
  | .CORNER => n == 4
  | .SIX_LINE => n == 6
  | _ => true

/-- The single flattened sequence of checks the source actually performs at
construction when both a layout and rules are supplied: positive amount,
space validity, arity, kind offered, amount range — each failure keeping its
own error. -/
def codeOrderValidate (layout : Layout) (rules : Rules) (bet_type : BetType)
    (spaces : List String) (amount : ℤ) : Except BetError Unit :=
  if amount ≤ 0 then .error .nonPositiveAmount
  else
    match spaces.dedup.find? (fun s => !(layout.member s || s == "0" || s == "00")) with
    | some s => .error (.invalidSpace s)
    | none =>
      if !arityOk bet_type spaces.dedup.length then .error (.shapeInvalid bet_type)
      else if !rules.is_bet_allowed bet_type then .error (.notAllowed bet_type)
      else if !rules.validate_bet_amount bet_type amount then
        .error (.amountOutOfRange amount (rules.get_minimum_bet bet_type)
          (rules.get_maximum_bet bet_type))
      else .ok ()

/-- The straight-up bet of the round-trip scenario: 10 on space `"17"`
under the default American rules. -/
def straightUpBet17 : Bet :=
  { bet_type := .STRAIGHT_UP, spaces := ["17"], amount := 10,
    betting_rules := some defaultAmericanRules }

/-- A table whose aggregate per-round ceiling is 2000. -/
def rules2000 : Rules :=
  { table_type := "AMERICAN",
    payout_ratios := defaultPayoutSection,
    minimum_bet_ratios := [("global", 1)],
    maximum_bet_ratios := [("global", 1)],
    table_limits :=
      [("minimum_bet", 1), ("maximum_bet", 2000), ("maximum_total_bet", 2000)] }

/-- A red bet of 2000 carrying the 2000-ceiling rules. -/
def betOf2000 : Bet :=
  { bet_type := .RED, spaces := [], amount := 2000, betting_rules := some rules2000 }

/-- A red bet of 1 carrying the 2000-ceiling rules. -/
def betOf1 : Bet :=
  { bet_type := .RED, spaces := [], amount := 1, betting_rules := some rules2000 }

/-- The sub-batch of bets of one kind (by `.value` string). -/
def kindBets (bets : List Bet) (k : String) : List Bet :=
  bets.filter (fun b => b.bet_type.value == k)

/-- Decidable equality of `Except` results, for evaluating concrete
outcomes. -/
instance {ε α : Type} [DecidableEq ε] [DecidableEq α] : DecidableEq (Except ε α) :=
  fun a b =>
    match a, b with
    | .ok x, .ok y =>
        if h : x = y then isTrue (by rw [h]) else isFalse (by simp [h])
    | .error x, .error y =>
        if h : x = y then isTrue (by rw [h]) else isFalse (by simp [h])
    | .ok _, .error _ => isFalse (by simp)
    | .error _, .ok _ => isFalse (by simp)

/-! ## Helper lemmas -/

mutual

/-- A deep copy of a configuration value is that value. -/
theorem deepCopyVal_eq : (v : CVal) → deepCopyVal v = v
  | .int _ => rfl
  | .rat _ => rfl
  | .str _ => rfl
  | .bool _ => rfl
  | .list _ => rfl
  | .dict d => congrArg CVal.dict (deepCopyEntries_eq d)

/-- A deep copy of a dictionary is that dictionary. -/
theorem deepCopyEntries_eq : (l : List (String × CVal)) → deepCopyEntries l = l
  | [] => rfl
  | (k, v) :: rest => by
      rw [deepCopyEntries, deepCopyVal_eq v, deepCopyEntries_eq rest]

end

theorem lookupKey_setKey_self {α : Type} (d : List (String × α)) (k : String) (v : α) :
    lookupKey (setKey d k v) k = some v := by
  induction d with
  | nil => simp [setKey, lookupKey]
  | cons hd tl ih =>
    obtain ⟨k', v'⟩ := hd
    by_cases h : k' = k <;> simp [setKey, lookupKey, h, ih]

theorem lookupKey_setKey_ne {α : Type} (d : List (String × α)) (k k' : String)
    (v : α) (hne : k' ≠ k) : lookupKey (setKey d k v) k' = lookupKey d k' := by
  have hne' : ¬(k = k') := fun h => hne h.symm
  induction d with
  | nil => simp [setKey, lookupKey, hne']
  | cons hd tl ih =>
    obtain ⟨k₀, v₀⟩ := hd
    by_cases h : k₀ = k
    · subst h
      simp [setKey, lookupKey, hne']
    · simp only [setKey, if_neg h, lookupKey]
      by_cases h' : k₀ = k' <;> simp [h', ih]

theorem hasKey_setKey {α : Type} (d : List (String × α)) (k k' : String) (v : α) :
    hasKey (setKey d k v) k' = (k' = k || hasKey d k') := by
  by_cases h : k' = k
  · subst h; simp [hasKey, lookupKey_setKey_self]
  · simp [hasKey, lookupKey_setKey_ne d k k' v h, h]

/-- Every branch of the overlay loop body writes the overlay entry's key. -/
theorem overlayStep_eq_setKey (merged : Config) (kv : String × CVal) :
    ∃ w, BettingRules.overlayStep merged kv = setKey merged kv.1 w := by
  unfold BettingRules.overlayStep
  rcases kv with ⟨ko, vo⟩
  rcases vo with _ | _ | _ | _ | _ | ov
  · exact ⟨_, rfl⟩
  · exact ⟨_, rfl⟩
  · exact ⟨_, rfl⟩
  · exact ⟨_, rfl⟩
  · exact ⟨_, rfl⟩
  · rcases hb : lookupKey merged ko with _ | bv
    · exact ⟨_, rfl⟩
    · rcases bv with _ | _ | _ | _ | _ | bd
      all_goals exact ⟨_, rfl⟩

/-- `apply_overlay` never removes a key: every key of the base is still
present after the merge. -/
theorem hasKey_apply_overlay (base overlay : Config) (k : String)
    (h : hasKey base k) : hasKey (BettingRules.apply_overlay base overlay) k := by
  unfold BettingRules.apply_overlay
  rw [deepCopyEntries_eq]
  induction overlay generalizing base with
  | nil => simpa using h
  | cons hd tl ih =>
    simp only [List.foldl_cons]
    apply ih
    obtain ⟨w, hw⟩ := overlayStep_eq_setKey base hd
    rw [hw, hasKey_setKey]
    simp [h]

/-- `_validate_config` succeeds exactly when every required section is a key
of the document. -/
theorem validate_config_ok_iff (c : Config) :
    BettingRules.validate_config c = .ok () ↔
      ∀ s ∈ BettingRules.required_sections, hasKey c s = true := by
  unfold BettingRules.validate_config
  by_cases h : (BettingRules.required_sections.filter fun s => !hasKey c s).isEmpty
  · simp only [h, if_true]
    rw [List.isEmpty_iff, List.filter_eq_nil_iff] at h
    simp only [true_iff]
    intro s hs
    have := h s hs
    simpa using this
  · simp only [h, if_false]
    constructor
    · intro hc; cases hc
    · intro hall
      exfalso
      apply h
      rw [List.isEmpty_iff, List.filter_eq_nil_iff]
      intro s hs
      simp [hall s hs]

/-! ## Claim C2 -/

/-- C2, counterexample: a base document missing `payout_ratios` merged with
an overlay supplying it yields a document with all four required sections —
yet `BettingRules` construction fails, because `_load_config` validates the
base BEFORE the overlay is applied.  This refutes the claim that the
required-section check is performed only on the post-merge configuration. -/
theorem c2_counterexample :
    BettingRules.validate_config
      (BettingRules.apply_overlay baseMissingPayouts overlayOnlyPayouts) = .ok () ∧
    BettingRules.init_config baseMissingPayouts (some overlayOnlyPayouts) =
      .error (.missingSections ["payout_ratios"]) := by
  constructor <;> rfl

/-- C2, amended: `BettingRules` construction succeeds exactly when the BASE
configuration already passes the required-section check — the check runs on
the base at load time, before the overlay is applied, and again after the
merge (which can never remove a section), so an overlay cannot rescue a base
that is missing a required section. -/
theorem c2_required_sections_pre_merge (base : Config) (overlay : Option Config) :
    (BettingRules.init_config base overlay).isOk = true ↔
      BettingRules.validate_config base = .ok () := by
  unfold BettingRules.init_config BettingRules.load_config
  constructor
  · intro h
    by_cases he : base.isEmpty
    · simp [he, Except.isOk, Except.toBool, bind, Except.bind, throw, throwThe,
        MonadExceptOf.throw] at h
    · simp only [he, if_false] at h
      rcases hv : BettingRules.validate_config base with e | u
      · rw [hv] at h
        simp [pure, Except.pure, bind, Except.bind, Except.isOk, Except.toBool] at h
      · rfl
  · intro hv
    have hall := (validate_config_ok_iff base).mp hv
    have hne : base.isEmpty = false := by
      rcases base with _ | ⟨hd, tl⟩
      · have := hall "payout_ratios" (by simp [BettingRules.required_sections])
        simp [hasKey, lookupKey] at this
      · rfl
    simp only [hne, Bool.false_eq_true, if_false, hv]
    rcases overlay with _ | o
    · simp [bind, Except.bind, hv, pure, Except.pure, Except.isOk, Except.toBool]
    · by_cases ho : o.isEmpty
      · simp [bind, Except.bind, ho, hv, pure, Except.pure, Except.isOk, Except.toBool]
      · have hv' : BettingRules.validate_config (BettingRules.apply_overlay base o)
            = .ok () := by
          rw [validate_config_ok_iff]
          intro s hs
          exact hasKey_apply_overlay base o s (hall s hs)
        simp [bind, Except.bind, ho, hv', pure, Except.pure, Except.isOk, Except.toBool]

/-- C2, witness: a complete base with a non-empty overlay constructs
successfully. -/
theorem c2_required_sections_witness :
    (BettingRules.init_config fullBaseConfig (some overlayOnlyPayouts)).isOk = true :=
  (c2_required_sections_pre_merge fullBaseConfig (some overlayOnlyPayouts)).mpr rfl

/-! ## Claim C7 -/

/-- C7: merging an empty overlay returns the base unchanged, and merging the
one-key overlay `payout_ratios.straight_up = 40` onto any base whose
`payout_ratios` is a dictionary rewrites exactly that one key: the merged
`payout_ratios` is the base's with `straight_up` set to 40, every other
top-level section reads back unchanged, and every other payout key reads
back unchanged. -/
theorem c7_overlay_precedence (base : Config) (pr : List (String × CVal))
    (hpr : lookupKey base "payout_ratios" = some (.dict pr)) :
    BettingRules.apply_overlay base [] = base ∧
    lookupKey (BettingRules.apply_overlay base overlayStraightUp40) "payout_ratios"
      = some (.dict (setKey pr "straight_up" (.int 40))) ∧
    (∀ k, k ≠ "payout_ratios" →
      lookupKey (BettingRules.apply_overlay base overlayStraightUp40) k
        = lookupKey base k) ∧
    (∀ k, k ≠ "straight_up" →
      lookupKey (setKey pr "straight_up" (.int 40)) k = lookupKey pr k) := by
  have hstep : BettingRules.apply_overlay base overlayStraightUp40
      = setKey base "payout_ratios" (.dict (setKey pr "straight_up" (.int 40))) := by
    unfold BettingRules.apply_overlay overlayStraightUp40
    rw [deepCopyEntries_eq]
    simp only [List.foldl_cons, List.foldl_nil]
    unfold BettingRules.overlayStep
    simp only [hpr]
    rfl
  refine ⟨?_, ?_, ?_, ?_⟩
  · unfold BettingRules.apply_overlay
    rw [deepCopyEntries_eq]
    rfl
  · rw [hstep, lookupKey_setKey_self]
  · intro k hk
    rw [hstep, lookupKey_setKey_ne _ _ _ _ hk]
  · intro k hk
    rw [lookupKey_setKey_ne _ _ _ _ hk]

/-- C7, witness: the precedence theorem applied to the concrete complete
base document. -/
theorem c7_overlay_witness :
    lookupKey (BettingRules.apply_overlay fullBaseConfig overlayStraightUp40)
        "payout_ratios"
      = some (.dict (setKey fullBasePayouts "straight_up" (.int 40))) :=
  (c7_overlay_precedence fullBaseConfig fullBasePayouts rfl).2.1

/-! ## Claim C6 -/

/-- C6, counterexample: with table minimum 3 and a straight-up minimum ratio
of -1/2, the source computes `int(3 * -0.5) = int(-1.5) = -1` (truncation
toward zero), while `floor(3 * -0.5) = -2`, so `get_minimum_bet` does not
equal the floor of the product for every configuration. -/
theorem c6_counterexample :
    Rules.get_minimum_bet_ratio negRatioRules .STRAIGHT_UP = -1/2 ∧
    Rules.get_table_minimum negRatioRules = 3 ∧
    Rules.get_minimum_bet negRatioRules .STRAIGHT_UP = -1 ∧
    ⌊((3 : ℚ) * (-1/2))⌋ = -2 ∧
    Rules.get_minimum_bet negRatioRules .STRAIGHT_UP ≠ ⌊((3 : ℚ) * (-1/2))⌋ := by
  have h3 : Rules.get_minimum_bet negRatioRules .STRAIGHT_UP
      = pyInt ((3 : ℚ) * (-1/2)) := rfl
  have h4 : pyInt ((3 : ℚ) * (-1/2)) = -1 := by
    unfold pyInt
    rw [if_neg (by norm_num), show ((3 : ℚ) * (-1/2)) = -(3/2) by norm_num,
      Int.ceil_neg]
    norm_num
  have h5 : (⌊((3 : ℚ) * (-1/2))⌋ : ℤ) = -2 := by norm_num
  exact ⟨rfl, rfl, h3.trans h4, h5, by rw [h3, h4, h5]; decide⟩

/-- C6, amended: `get_minimum_bet` resolves the ratio through the
kind-entry / `"global"` / `1.0` fallback chain (exposed by
`get_minimum_bet_ratio`) and equals the FLOOR of table minimum times ratio
whenever both are non-negative — Python's `int()` truncates toward zero, so
for a negative product the result is the ceiling instead; analogously for
`get_maximum_bet`. -/
theorem c6_ratio_derivation (rules : Rules) (bt : BetType)
    (h1 : 0 ≤ rules.get_minimum_bet_ratio bt) (h2 : 0 ≤ rules.get_table_minimum)
    (h3 : 0 ≤ rules.get_maximum_bet_ratio bt) (h4 : 0 ≤ rules.get_table_maximum) :
    rules.get_minimum_bet bt
      = ⌊(rules.get_table_minimum : ℚ) * rules.get_minimum_bet_ratio bt⌋ ∧
    rules.get_maximum_bet bt
      = ⌊(rules.get_table_maximum : ℚ) * rules.get_maximum_bet_ratio bt⌋ := by
  have e1 : rules.get_minimum_bet bt
      = pyInt ((rules.get_table_minimum : ℚ) * rules.get_minimum_bet_ratio bt) := rfl
  have e2 : rules.get_maximum_bet bt
      = pyInt ((rules.get_table_maximum : ℚ) * rules.get_maximum_bet_ratio bt) := rfl
  constructor
  · rw [e1]; unfold pyInt
    rw [if_pos (mul_nonneg (by exact_mod_cast h2) h1)]
  · rw [e2]; unfold pyInt
    rw [if_pos (mul_nonneg (by exact_mod_cast h4) h3)]

/-- C6, witness: the derivation evaluated on the default American rules for
the straight-up kind. -/
theorem c6_ratio_derivation_witness :
    Rules.get_minimum_bet defaultAmericanRules .STRAIGHT_UP
      = ⌊(Rules.get_table_minimum defaultAmericanRules : ℚ)
          * Rules.get_minimum_bet_ratio defaultAmericanRules .STRAIGHT_UP⌋ ∧
    Rules.get_maximum_bet defaultAmericanRules .STRAIGHT_UP
      = ⌊(Rules.get_table_maximum defaultAmericanRules : ℚ)
          * Rules.get_maximum_bet_ratio defaultAmericanRules .STRAIGHT_UP⌋ :=
  c6_ratio_derivation defaultAmericanRules .STRAIGHT_UP
    (by rw [show Rules.get_minimum_bet_ratio defaultAmericanRules .STRAIGHT_UP = 1
          from rfl]
        norm_num)
    (by decide)
    (by rw [show Rules.get_maximum_bet_ratio defaultAmericanRules .STRAIGHT_UP = 1/2
          from rfl]
        norm_num)
    (by decide)

/-! ## Claim C4 -/

/-- C4: with the default payout table, the calculated house edge is 5.26 for
both the straight-up and the red bet on an American table and 2.70 for both
on a European table, and the winning-outcome counts are 1/2/3/4/6 for the
inside kinds, 18 for color, parity and high/low, and 12 for dozens and
columns. -/
theorem c4_house_edge_defaults :
    Rules.get_house_edge defaultAmericanRules .STRAIGHT_UP = .ok (526/100) ∧
    Rules.get_house_edge defaultAmericanRules .RED = .ok (526/100) ∧
    Rules.get_house_edge defaultEuropeanRules .STRAIGHT_UP = .ok (270/100) ∧
    Rules.get_house_edge defaultEuropeanRules .RED = .ok (270/100) ∧
    Rules.get_winning_outcomes .STRAIGHT_UP = 1 ∧
    Rules.get_winning_outcomes .SPLIT = 2 ∧
    Rules.get_winning_outcomes .STREET = 3 ∧
    Rules.get_winning_outcomes .CORNER = 4 ∧
    Rules.get_winning_outcomes .SIX_LINE = 6 ∧
    Rules.get_winning_outcomes .RED = 18 ∧
    Rules.get_winning_outcomes .BLACK = 18 ∧
    Rules.get_winning_outcomes .ODD = 18 ∧
    Rules.get_winning_outcomes .EVEN = 18 ∧
    Rules.get_winning_outcomes .HIGH = 18 ∧
    Rules.get_winning_outcomes .LOW = 18 ∧
    Rules.get_winning_outcomes .FIRST_DOZEN = 12 ∧
    Rules.get_winning_outcomes .SECOND_DOZEN = 12 ∧
    Rules.get_winning_outcomes .THIRD_DOZEN = 12 ∧
    Rules.get_winning_outcomes .FIRST_COLUMN = 12 ∧
    Rules.get_winning_outcomes .SECOND_COLUMN = 12 ∧
    Rules.get_winning_outcomes .THIRD_COLUMN = 12 := by
  refine ⟨?_, ?_, ?_, ?_, rfl, rfl, rfl, rfl, rfl, rfl, rfl, rfl, rfl, rfl, rfl,
    rfl, rfl, rfl, rfl, rfl, rfl⟩
  · simp only [Rules.get_house_edge, Rules.get_payout_ratio, defaultAmericanRules,
      defaultPayoutSection, lookupKey, BetType.value, Rules.get_winning_outcomes,
      pyRound2, roundHalfEven]
    norm_num
    rw [if_neg (by decide : ¬("AMERICAN" = "EUROPEAN"))]
    rw [show ((1 : ℚ) - 38⁻¹ * 36) * 100 * 100 = 10000/19 by norm_num]
    rw [show Int.fract ((10000 : ℚ)/19) = 6/19 by norm_num [Int.fract]]
    norm_num
  · simp only [Rules.get_house_edge, Rules.get_payout_ratio, defaultAmericanRules,
      defaultPayoutSection, lookupKey, BetType.value, Rules.get_winning_outcomes,
      pyRound2, roundHalfEven]
    simp only [String.reduceEq, reduceIte, Functor.map]
    norm_num
    rw [show Int.fract ((10000 : ℚ)/19) = 6/19 by norm_num [Int.fract]]
    norm_num
  · simp only [Rules.get_house_edge, Rules.get_payout_ratio, defaultEuropeanRules,
      defaultAmericanRules, defaultPayoutSection, lookupKey, BetType.value,
      Rules.get_winning_outcomes, pyRound2, roundHalfEven]
    norm_num
    rw [show Int.fract ((10000 : ℚ)/37) = 10/37 by norm_num [Int.fract]]
    norm_num
  · simp only [Rules.get_house_edge, Rules.get_payout_ratio, defaultEuropeanRules,
      defaultAmericanRules, defaultPayoutSection, lookupKey, BetType.value,
      Rules.get_winning_outcomes, pyRound2, roundHalfEven]
    simp only [String.reduceEq, reduceIte, Functor.map]
    norm_num
    rw [show Int.fract ((10000 : ℚ)/37) = 10/37 by norm_num [Int.fract]]
    norm_num

/-! ## Claim C9 -/

/-- C9: constructed with neither a layout nor rules, `Bet.__init__` performs
no validation at all — any amount (zero and negatives included), any space
identifiers and any space count are accepted. -/
theorem c9_no_validation (bt : BetType) (ss : List String) (a : ℤ) :
    Bet.init bt ss a none none
      = .ok { bet_type := bt, spaces := ss.dedup, amount := a,
              betting_rules := none } := rfl

/-! ## Claim C8 -/

/-- C8: under the default American rules the straight-up payout ratio is 35,
and a straight-up bet of 10 on `"17"` pays `10 + 10*35 = 360` when `"17"`
wins and 0 when any other space wins. -/
theorem c8_round_trip :
    Rules.get_payout_ratio defaultAmericanRules .STRAIGHT_UP = .ok 35 ∧
    Bet.calculate_payout straightUpBet17 ⟨"17", some "BLACK"⟩ = 360 ∧
    ∀ s : Space, s.value ≠ "17" → Bet.calculate_payout straightUpBet17 s = 0 := by
  refine ⟨rfl, rfl, ?_⟩
  intro s hs
  have hw : Bet.is_winning_bet straightUpBet17 s = false := by
    unfold Bet.is_winning_bet
    rcases s with ⟨v, c⟩
    simp only [straightUpBet17] at hs ⊢
    simp [List.contains, hs]
  simp [Bet.calculate_payout, hw]

/-- C8, witness: the losing branch evaluated on the space `"20"`. -/
theorem c8_round_trip_witness :
    Bet.calculate_payout straightUpBet17 ⟨"20", some "RED"⟩ = 0 :=
  c8_round_trip.2.2 ⟨"20", some "RED"⟩ (by decide)

/-! ## Claim C10 -/

/-- C10: a winning bet whose kind has no entry in the attached rules' payout
table does not fail — `calculate_payout` silently falls back to the
class-level `PAYOUT_RATIOS` default and pays stake plus stake times the
default ratio. -/
theorem c10_payout_fallback (rules : Rules) (bt : BetType) (ss : List String)
    (a : ℤ) (w : Space)
    (hmiss : lookupKey rules.payout_ratios bt.value = none)
    (hwin : Bet.is_winning_bet
      { bet_type := bt, spaces := ss, amount := a, betting_rules := some rules } w
        = true) :
    Bet.calculate_payout
      { bet_type := bt, spaces := ss, amount := a, betting_rules := some rules } w
        = a + a * Bet.PAYOUT_RATIOS bt := by
  unfold Bet.calculate_payout
  rw [hwin]
  simp [Rules.get_payout_ratio, hmiss]

/-- C10, witness: a black bet of 10 under the limited rules (which omit
`black`) still pays `10 + 10*1 = 20` on a winning black space. -/
theorem c10_payout_fallback_witness :
    Bet.calculate_payout
      { bet_type := .BLACK, spaces := [], amount := 10,
        betting_rules := some limitedRules } ⟨"20", some "BLACK"⟩
      = 10 + 10 * Bet.PAYOUT_RATIOS .BLACK :=
  c10_payout_fallback limitedRules .BLACK [] 10 ⟨"20", some "BLACK"⟩ rfl rfl

/-! ## Claim C3 -/

/-- C3, counterexample: a black bet on the unknown space `"99"` at a table
whose payout table omits `black` raises the unknown-space error, while the
order the specification claims (kind-offered before space validity) would
raise the kind-not-offered error — the two errors are distinct, so the
claimed check order is not the source's. -/
theorem c3_counterexample :
    Bet.init .BLACK ["99"] 50 (some americanLayout) (some limitedRules)
      = .error (.invalidSpace "99") ∧
    claimOrderValidate americanLayout limitedRules .BLACK ["99"] 50
      = .error (.notAllowed .BLACK) ∧
    (BetError.invalidSpace "99") ≠ (BetError.notAllowed .BLACK) := by
  refine ⟨rfl, rfl, by decide⟩

/-- `Bet._validate_betting_rules` is the two-step chain: kind offered, then
amount within the derived bounds. -/
theorem validate_betting_rules_eq (r : Rules) (bt : BetType) (a : ℤ) :
    Bet.validate_betting_rules r bt a =
      (if !r.is_bet_allowed bt then .error (.notAllowed bt)
       else if !r.validate_bet_amount bt a then
         .error (.amountOutOfRange a (r.get_minimum_bet bt) (r.get_maximum_bet bt))
       else .ok ()) := by
  unfold Bet.validate_betting_rules
  by_cases h1 : r.is_bet_allowed bt <;> by_cases h2 : r.validate_bet_amount bt a <;>
    simp [h1, h2, bind, Except.bind, pure, Except.pure, throw, throwThe,
      MonadExceptOf.throw]

/-- `Bet._validate_bet_type_matches_spaces` is exactly the arity test. -/
theorem validate_bet_type_matches_spaces_eq (b : Bet) :
    Bet.validate_bet_type_matches_spaces b =
      (if !arityOk b.bet_type b.spaces.length then .error (.shapeInvalid b.bet_type)
       else .ok ()) := by
  obtain ⟨bt, ss, a, r⟩ := b
  cases bt <;> simp only [Bet.validate_bet_type_matches_spaces, arityOk] <;>
    first
    | rfl
    | simp [throw, throwThe, MonadExceptOf.throw, pure, Except.pure]

/-- C3, amended: at construction with both a layout and rules supplied, the
checks run as the single flattened chain positive-amount, space validity,
arity, kind offered, amount range (`codeOrderValidate`) — the layout-driven
checks of `_validate_bet` all run before the rules-driven checks of
`_validate_betting_rules`, each failure with its own distinct error. -/
theorem c3_construction_order (bt : BetType) (ss : List String) (a : ℤ)
    (l : Layout) (r : Rules) :
    Bet.init bt ss a (some l) (some r)
      = (codeOrderValidate l r bt ss a).map (fun _ =>
          ({ bet_type := bt, spaces := ss.dedup, amount := a,
             betting_rules := some r } : Bet)) := by
  unfold Bet.init codeOrderValidate Bet.validate_bet
  by_cases h : a ≤ 0
  · simp [h, Except.map, bind, Except.bind, throw, throwThe, MonadExceptOf.throw]
  · simp only [h, if_false]
    rcases hf : (ss.dedup.find? fun s => !(l.member s || s == "0" || s == "00"))
        with _ | s
    · simp only [hf]
      rw [validate_bet_type_matches_spaces_eq]
      by_cases ha : arityOk bt ss.dedup.length
      · simp only [ha, Bool.not_true, Bool.false_eq_true, if_false]
        rw [validate_betting_rules_eq]
        by_cases h1 : Rules.is_bet_allowed r bt
        · simp only [h1, Bool.not_true, Bool.false_eq_true, if_false]
          by_cases h2 : Rules.validate_bet_amount r bt a
          · simp [h2, Except.map, bind, Except.bind, pure, Except.pure]
          · simp [h2, Except.map, bind, Except.bind, pure, Except.pure]
        · simp [h1, Except.map, bind, Except.bind, pure, Except.pure]
      · simp [ha, Except.map, bind, Except.bind, pure, Except.pure]
    · simp [hf, Except.map, bind, Except.bind, throw, throwThe, MonadExceptOf.throw,
        pure, Except.pure]

/-! ## Claim C5 -/

/-- `place_bet` succeeds and appends the bet when betting is open, the bet
carries rules (so re-validation is skipped) and the ceiling is kept. -/
theorem place_bet_ok (g : Game) (b : Bet) (hopen : g.betting_open = true)
    (hr : b.betting_rules.isSome = true)
    (hle : g.get_total_bet_amount + b.amount
      ≤ g.betting_rules.get_maximum_total_bet) :
    Game.place_bet g b = .ok { g with active_bets := g.active_bets ++ [b] } := by
  unfold Game.place_bet
  rcases hb : b.betting_rules with _ | r
  · rw [hb] at hr; cases hr
  · have hgt : ¬((g.active_bets.map Bet.amount).sum + b.amount
        > g.betting_rules.get_maximum_total_bet) := by
      rw [not_lt]
      exact hle
    simp [hopen, hb, hgt, bind, Except.bind, pure, Except.pure]

/-- `place_bet` rejects with the aggregate-limit error — before touching the
bet list — when the current total plus the new amount would exceed the
ceiling. -/
theorem place_bet_reject (g : Game) (b : Bet) (hopen : g.betting_open = true)
    (hr : b.betting_rules.isSome = true)
    (hgt : g.betting_rules.get_maximum_total_bet
      < g.get_total_bet_amount + b.amount) :
    Game.place_bet g b
      = .error (.aggregateLimitExceeded g.betting_rules.get_maximum_total_bet) := by
  unfold Game.place_bet
  rcases hb : b.betting_rules with _ | r
  · rw [hb] at hr; cases hr
  · have hgt' : (g.active_bets.map Bet.amount).sum + b.amount
        > g.betting_rules.get_maximum_total_bet := hgt
    simp [hopen, hb, hgt', bind, Except.bind, pure, Except.pure, throw, throwThe,
      MonadExceptOf.throw]

/-- Placing a batch of rules-carrying, non-negative bets succeeds whenever
the final total respects the ceiling, appending them in order. -/
theorem place_bets_ok (g : Game) (bets : List Bet) (hopen : g.betting_open = true)
    (hr : ∀ x ∈ bets, x.betting_rules.isSome = true)
    (hnn : ∀ x ∈ bets, 0 ≤ x.amount)
    (hle : g.get_total_bet_amount + (bets.map Bet.amount).sum
      ≤ g.betting_rules.get_maximum_total_bet) :
    Game.place_bets g bets
      = .ok { g with active_bets := g.active_bets ++ bets } := by
  induction bets generalizing g with
  | nil => simp [Game.place_bets, pure, Except.pure]
  | cons b rest ih =>
    have hsumnn : 0 ≤ (rest.map Bet.amount).sum := by
      apply List.sum_nonneg
      intro x hx
      simp only [List.mem_map] at hx
      obtain ⟨y, hy, hxy⟩ := hx
      exact hxy ▸ hnn y (by simp [hy])
    have hstep : g.get_total_bet_amount + b.amount
        ≤ g.betting_rules.get_maximum_total_bet := by
      have := hle
      simp only [List.map_cons, List.sum_cons] at this
      omega
    have h1 := place_bet_ok g b hopen (hr b (by simp)) hstep
    unfold Game.place_bets
    simp only [List.foldlM_cons, h1]
    have h2 := ih { g with active_bets := g.active_bets ++ [b] } hopen
      (fun x hx => hr x (by simp [hx])) (fun x hx => hnn x (by simp [hx]))
      (by
        simp [Game.get_total_bet_amount] at hle ⊢
        omega)
    unfold Game.place_bets at h2
    simp only [bind, Except.bind, h2]
    simp [List.append_assoc]

/-- C5: with the betting phase OPEN and a ceiling of 2000, placing bets that
sum to exactly 2000 succeeds bet by bet; any further bet with a positive
amount is then rejected with the aggregate-limit error by the incremental
check that runs before the bet is appended, so the active-bet list and the
recorded total stay at 2000. -/
theorem c5_aggregate_ceiling (rules : Rules) (bets : List Bet) (b : Bet)
    (hmax : rules.get_maximum_total_bet = 2000)
    (hr : ∀ x ∈ bets, x.betting_rules.isSome = true)
    (hnn : ∀ x ∈ bets, 0 ≤ x.amount)
    (hsum : (bets.map Bet.amount).sum = 2000)
    (hb : b.betting_rules.isSome = true) (hpos : 0 < b.amount) :
    Game.place_bets (Game.init rules) bets
      = .ok { betting_open := true, active_bets := bets, betting_rules := rules } ∧
    Game.get_total_bet_amount
      { betting_open := true, active_bets := bets, betting_rules := rules } = 2000 ∧
    Game.place_bet
      { betting_open := true, active_bets := bets, betting_rules := rules } b
      = .error (.aggregateLimitExceeded 2000) := by
  have h1 := place_bets_ok (Game.init rules) bets rfl hr hnn
    (by simp [Game.get_total_bet_amount, Game.init, hsum, hmax])
  refine ⟨by simpa [Game.init] using h1, ?_, ?_⟩
  · simp [Game.get_total_bet_amount, hsum]
  · have h2 := place_bet_reject
      { betting_open := true, active_bets := bets, betting_rules := rules } b rfl hb
      (by simp [Game.get_total_bet_amount, hsum, hmax]; omega)
    rw [h2, hmax]

/-- C5, witness: one bet of 2000, then a bet of 1, on a fresh 2000-ceiling
table. -/
theorem c5_aggregate_ceiling_witness :
    Game.place_bets (Game.init rules2000) [betOf2000]
      = .ok { betting_open := true, active_bets := [betOf2000],
              betting_rules := rules2000 } ∧
    Game.place_bet
      { betting_open := true, active_bets := [betOf2000],
        betting_rules := rules2000 } betOf1
      = .error (.aggregateLimitExceeded 2000) :=
  have h := c5_aggregate_ceiling rules2000 [betOf2000] betOf1 rfl
    (by intro x hx; rw [List.mem_singleton] at hx; subst hx; rfl)
    (by intro x hx; rw [List.mem_singleton] at hx; subst hx; decide)
    rfl rfl (by decide)
  ⟨h.1, h.2.2⟩

/-! ## Claim C1 -/

/-- The length of a `filterMap` is the number of elements on which the
function fires. -/
theorem length_filterMap_isSome {α β : Type} (f : α → Option β) (l : List α) :
    (l.filterMap f).length = (l.filter (fun a => (f a).isSome)).length := by
  induction l with
  | nil => rfl
  | cons hd tl ih =>
    cases h : f hd <;> simp [List.filterMap_cons, h, ih]

/-- A check produces no error exactly when it succeeded. -/
theorem checkError_eq_none {ε : Type} (e : Except ε Unit) :
    checkError e = none ↔ e = .ok () := by
  cases e with
  | error x => simp [checkError]
  | ok u => cases u; simp [checkError]

/-- Every branch of the per-kind tally writes the bet's kind key. -/
theorem bumpTypeCounts_eq_setKey (acc : List (String × ℕ × ℤ)) (b : Bet) :
    ∃ w, bumpTypeCounts acc b = setKey acc b.bet_type.value w := by
  unfold bumpTypeCounts
  rcases h : lookupKey acc b.bet_type.value with _ | ⟨c, t⟩ <;> simp only [h] <;>
    exact ⟨_, rfl⟩

/-- The per-kind tally fold computes, for every kind, the count and amount
sub-total of that kind's bets on top of whatever the accumulator held. -/
theorem lookupKey_foldl_bump (bets : List Bet) (acc : List (String × ℕ × ℤ))
    (k : String) :
    lookupKey (bets.foldl bumpTypeCounts acc) k =
      match lookupKey acc k with
      | some (c, t) =>
          some (c + (kindBets bets k).length,
            t + ((kindBets bets k).map Bet.amount).sum)
      | none =>
          if (kindBets bets k).length = 0 then none
          else some ((kindBets bets k).length,
            ((kindBets bets k).map Bet.amount).sum) := by
  induction bets generalizing acc with
  | nil =>
    rcases h : lookupKey acc k with _ | ⟨c, t⟩ <;> simp [h, kindBets]
  | cons b rest ih =>
    simp only [List.foldl_cons]
    rw [ih]
    by_cases hk : b.bet_type.value = k
    · have hkb : kindBets (b :: rest) k = b :: kindBets rest k := by
        simp [kindBets, List.filter_cons, hk]
      rcases hacc : lookupKey acc k with _ | ⟨c, t⟩
      · have hbump : bumpTypeCounts acc b = setKey acc k (1, b.amount) := by
          unfold bumpTypeCounts
          simp only [hk, hacc]
        rw [hbump, lookupKey_setKey_self, hkb]
        simp [Nat.succ_ne_zero]
        omega
      · have hbump : bumpTypeCounts acc b = setKey acc k (c + 1, t + b.amount) := by
          unfold bumpTypeCounts
          simp only [hk, hacc]
        rw [hbump, lookupKey_setKey_self, hkb]
        simp
        constructor <;> omega
    · have hkb : kindBets (b :: rest) k = kindBets rest k := by
        simp [kindBets, List.filter_cons, hk]
      obtain ⟨w, hw⟩ := bumpTypeCounts_eq_setKey acc b
      rw [hw, lookupKey_setKey_ne _ _ _ _ (fun h => hk h.symm), hkb]

/-- C1: for every batch, the multi-bet validator returns the total count,
the total staked amount, a per-kind tally whose entry for each kind is that
kind's count and amount sub-total, one error per bet failing the full
single-bet validation of spec section 4.3 (positive amount, space validity,
arity, kind offered, amount range — the construction-time check set), and a
verdict that is true exactly when every bet passes and the batch total does
not exceed `maximum_total_bet`; `Game.validate_all_bets` delegates to it and
`Game.close_betting` transitions to the closed phase and surfaces its result
over the pending bets. -/
theorem c1_multi_bet_summary (rules : Rules) (layout : Layout) (bets : List Bet) :
    (validate_multiple_bets rules layout bets).bet_count = bets.length ∧
    (validate_multiple_bets rules layout bets).total_amount
      = (bets.map Bet.amount).sum ∧
    ((validate_multiple_bets rules layout bets).valid = true ↔
      ((∀ b ∈ bets, multiBetSingleCheck rules layout b = .ok ()) ∧
        (bets.map Bet.amount).sum ≤ rules.get_maximum_total_bet)) ∧
    (validate_multiple_bets rules layout bets).errors.length
      = (bets.filter
          (fun b =>
            (checkError (multiBetSingleCheck rules layout b)).isSome)).length ∧
    (∀ k, lookupKey (validate_multiple_bets rules layout bets).bet_type_counts k
        = if (kindBets bets k).length = 0 then none
          else some ((kindBets bets k).length,
            ((kindBets bets k).map Bet.amount).sum)) ∧
    (∀ g : Game,
      g.validate_all_bets layout
        = validate_multiple_bets g.betting_rules layout g.active_bets ∧
      (g.close_betting layout).1.betting_open = false ∧
      (g.close_betting layout).2
        = validate_multiple_bets g.betting_rules layout g.active_bets) := by
  refine ⟨rfl, rfl, ?_, ?_, ?_, fun g => ⟨rfl, rfl, rfl⟩⟩
  · show (_ && _) = true ↔ _
    rw [Bool.and_eq_true, List.isEmpty_iff, List.filterMap_eq_nil_iff,
      decide_eq_true_iff]
    constructor
    · rintro ⟨h1, h2⟩
      exact ⟨fun b hb => (checkError_eq_none _).mp (h1 b hb), h2⟩
    · rintro ⟨h1, h2⟩
      exact ⟨fun b hb => (checkError_eq_none _).mpr (h1 b hb), h2⟩
  · exact length_filterMap_isSome _ bets
  · intro k
    show lookupKey (bets.foldl bumpTypeCounts []) k = _
    rw [lookupKey_foldl_bump]
    rfl

end PennyAnte
